import Mathlib

/-!
Shallow embedding of `src/udev_rules/udev_mapper.py` (vicoslab/arm101).

Python strings are modelled as `List Char` (`Str`).  The external
device-information provider (`udevadm info --query=all --name=<node>`) is
modelled as a function `Str → Option Str`: `none` models a non-zero exit
(`subprocess.CalledProcessError`, caught by `query_node`), `some output`
models the textual attribute dump.  The provider interface emits
newline-separated `KEY=VALUE` text, so line splitting is on `'\n'`
(with Python's `str.splitlines` convention that a trailing newline does
not produce a final empty line).

The attribute dictionary built by `query_node` only ever holds the three
keys `idVendor`, `idProduct`, `serial`, so it is modelled as a record of
three `Option Str` fields; a Python dict update (`attrs["k"] = v`)
becomes a record update, which like the dict overwrites a prior value.

`pyudev` device objects are modelled by an inductive chain `Device`
carrying `device_node` (optional), `sys_path`, and a parent (absent at
the root).  The rule store is a byte string plus a writability flag; the
`try: open(..., "a") ... except PermissionError` of `append_udev_rule`
is modelled by an outcome value together with a count of attempted
opens-for-write, and the append-mode write becomes list concatenation.
-/

namespace UdevMapper

abbrev Str := List Char

/-- Does `l` start with `pat`?  (Used to model Python's substring test.) -/
def startsWithC : Str → Str → Bool
  | [], _ => true
  | _ :: _, [] => false
  | p :: ps, c :: cs => p == c && startsWithC ps cs

/-- Does `l` contain `pat` as a contiguous substring?
Models Python's `pat in line`. -/
def containsSubC (pat : Str) : Str → Bool
  | [] => startsWithC pat []
  | c :: cs => startsWithC pat (c :: cs) || containsSubC pat cs

/-- Everything after the first occurrence of `ch` in `l`.
Models Python's `line.split(ch, 1)[1]`; the code only evaluates this
under a guard that ensures `ch` occurs in the line (the matched
substring ends in `=`), so the `[]` default for a `ch`-free line is
never reached by the embedded call sites. -/
def afterChar (ch : Char) : Str → Str
  | [] => []
  | c :: cs => if c == ch then cs else afterChar ch cs

/-- Worker for `splitlines`: accumulates the current line (reversed). -/
def splitlinesGo (acc : Str) : Str → List Str
  | [] => [acc.reverse]
  | c :: cs =>
    if c = '\n' then
      match cs with
      | [] => [acc.reverse]
      | _ :: _ => acc.reverse :: splitlinesGo [] cs
    else splitlinesGo (c :: acc) cs

/-- Python's `str.splitlines()` restricted to `'\n'` boundaries:
a trailing newline yields no final empty line, and the empty string
yields no lines at all. -/
def splitlines (s : Str) : List Str :=
  match s with
  | [] => []
  | _ :: _ => splitlinesGo [] s

/-- The attribute dictionary built by `query_node`: up to three
recognized keys, each an optional string value. -/
structure Attrs where
  idVendor : Option Str
  idProduct : Option Str
  serial : Option Str
  deriving DecidableEq, Repr

/-- The empty dictionary `{}`. -/
def Attrs.empty : Attrs := ⟨none, none, none⟩

/-- `"idVendor" in attrs and "idProduct" in attrs`. -/
def complete (a : Attrs) : Bool := a.idVendor.isSome && a.idProduct.isSome

/-- One iteration of the `for line in output.splitlines()` body of
`query_node`: an `if / elif / elif` chain of substring tests, each
branch storing everything after the first `=` of the line. -/
def parseLine (attrs : Attrs) (line : Str) : Attrs :=
  if containsSubC "ID_VENDOR_ID=".toList line then
    { attrs with idVendor := some (afterChar '=' line) }
  else if containsSubC "ID_MODEL_ID=".toList line then
    { attrs with idProduct := some (afterChar '=' line) }
  else if containsSubC "ID_SERIAL_SHORT=".toList line then
    { attrs with serial := some (afterChar '=' line) }
  else attrs

/-- The parsing loop of `query_node`: fold `parseLine` over the lines of
the provider's output, starting from the empty dictionary. -/
def parseOutput (output : Str) : Attrs :=
  (splitlines output).foldl parseLine Attrs.empty

/-- `query_node(node)`: invoke the provider; a failed invocation
(`CalledProcessError`) returns the empty dictionary, a successful one is
parsed line by line. -/
def query_node (provider : Str → Option Str) (node : Str) : Attrs :=
  match provider node with
  | none => Attrs.empty
  | some output => parseOutput output

/-- A pyudev device handle: optional device node path, sysfs path, and
an optional parent (`root` has none). -/
inductive Device where
  | root (device_node : Option Str) (sys_path : Str)
  | child (device_node : Option Str) (sys_path : Str) (parent : Device)
  deriving DecidableEq, Repr

def Device.device_node : Device → Option Str
  | .root dn _ => dn
  | .child dn _ _ => dn

def Device.sys_path : Device → Str
  | .root _ sp => sp
  | .child _ sp _ => sp

def Device.parent : Device → Option Device
  | .root _ _ => none
  | .child _ _ p => some p

/-- Python's `x or y` for an optional string `x`: `None` and the empty
string are both falsy. -/
def pyOr (x : Option Str) (y : Str) : Str :=
  match x with
  | none => y
  | some s => if s.isEmpty then y else s

/-- `dev.device_node or dev.sys_path`: the query target for a handle. -/
def nodeOf (d : Device) : Str := pyOr d.device_node d.sys_path

/-- The attributes the provider yields for a device's query target. -/
def queryDev (provider : Str → Option Str) (d : Device) : Attrs :=
  query_node provider (nodeOf d)

/-- The `while parent is not None` loop of `get_device_attributes`,
expressed as recursion over the chain starting at the current `parent`
value: query the node, return on a complete set, otherwise move to the
next parent; an exhausted chain yields the empty dictionary. -/
def walkLoop (provider : Str → Option Str) : Device → Attrs
  | .root dn sp =>
    let attrs := query_node provider (pyOr dn sp)
    if complete attrs then attrs else Attrs.empty
  | .child dn sp par =>
    let attrs := query_node provider (pyOr dn sp)
    if complete attrs then attrs else walkLoop provider par

/-- Entering the while loop with `parent = dev.parent`: no parent means
the loop body never runs and `{}` is returned. -/
def walkParents (provider : Str → Option Str) : Option Device → Attrs
  | none => Attrs.empty
  | some p => walkLoop provider p

/-- `get_device_attributes(dev)`: try the device itself, then walk up
the parent chain. -/
def get_device_attributes (provider : Str → Option Str) (dev : Device) : Attrs :=
  let attrs := query_node provider (nodeOf dev)
  if complete attrs then attrs
  else walkParents provider dev.parent

/-- Instrumented variant of `walkLoop` that also records, in order, the
query targets handed to the provider. -/
def walkLoopT (provider : Str → Option Str) : Device → Attrs × List Str
  | .root dn sp =>
    let attrs := query_node provider (pyOr dn sp)
    if complete attrs then (attrs, [pyOr dn sp]) else (Attrs.empty, [pyOr dn sp])
  | .child dn sp par =>
    let attrs := query_node provider (pyOr dn sp)
    if complete attrs then (attrs, [pyOr dn sp])
    else
      let r := walkLoopT provider par
      (r.1, pyOr dn sp :: r.2)

/-- Instrumented variant of `walkParents`. -/
def walkParentsT (provider : Str → Option Str) : Option Device → Attrs × List Str
  | none => (Attrs.empty, [])
  | some p => walkLoopT provider p

/-- Instrumented variant of `get_device_attributes`: the result together
with the list of query targets handed to the provider, in order. -/
def get_device_attributesT (provider : Str → Option Str) (dev : Device) :
    Attrs × List Str :=
  let attrs := query_node provider (nodeOf dev)
  if complete attrs then (attrs, [nodeOf dev])
  else
    let r := walkParentsT provider dev.parent
    (r.1, nodeOf dev :: r.2)

/-- The strict ancestors of a device: `parent`, `parent.parent`, …. -/
def ancestorChain : Device → List Device
  | .root _ _ => []
  | .child _ _ p => p :: ancestorChain p

/-- What `append_udev_rule` reports: the missing-attribute rejection,
the `PermissionError` rejection, or a successful append. -/
inductive AppendOutcome where
  | rejectedMissing
  | rejectedPermission
  | success
  deriving DecidableEq, Repr

/-- The rule store file: whether opening it for writing succeeds, and
its current byte content. -/
structure RuleStore where
  canWrite : Bool
  content : Str
  deriving DecidableEq, Repr

/-- Result of one `append_udev_rule` call: the reported outcome, how
many opens-for-write were attempted, and the store content afterwards. -/
structure AppendResult where
  outcome : AppendOutcome
  openAttempts : Nat
  content : Str
  deriving DecidableEq, Repr

/-- The f-string of `append_udev_rule`, rendering the one-line rule
(terminated by a newline) with the three attribute values and the
friendly name embedded verbatim.  The `getD []` defaults are never
reached by the embedded call site, which guards on all three keys
being present. -/
def rule_line (attrs : Attrs) (friendly_name : Str) : Str :=
  "SUBSYSTEM==\"tty|video4linux\", ATTRS\x7bidVendor\x7d==\"".toList
    ++ attrs.idVendor.getD []
    ++ "\", ATTRS\x7bidProduct\x7d==\"".toList
    ++ attrs.idProduct.getD []
    ++ "\", ATTRS\x7bserial\x7d==\"".toList
    ++ attrs.serial.getD []
    ++ "\", SYMLINK+=\"".toList
    ++ friendly_name
    ++ "\"\n".toList

/-- `append_udev_rule(attrs, friendly_name)` acting on a store: check
the three required keys before any I/O; then attempt to open the store
in append mode, either appending the rendered rule or reporting the
caught `PermissionError`. -/
def append_udev_rule (store : RuleStore) (attrs : Attrs) (friendly_name : Str) :
    AppendResult :=
  if !(attrs.idVendor.isSome && attrs.idProduct.isSome && attrs.serial.isSome) then
    ⟨.rejectedMissing, 0, store.content⟩
  else
    let rule := rule_line attrs friendly_name
    if store.canWrite then ⟨.success, 1, store.content ++ rule⟩
    else ⟨.rejectedPermission, 1, store.content⟩

/-- The maximal `=`-free prefix of a line: the spec's "key (the
substring before `=`)" of a `KEY=VALUE` line. -/
def keyOf (line : Str) : Str := line.takeWhile (fun c => c != '=')

/-- `l` contains `pat` as a contiguous substring (specification-side,
definitional form used to state what the parser does). -/
def HasSub (pat l : Str) : Prop := ∃ pre post, l = pre ++ pat ++ post

/-- `value` is everything after the first occurrence of `ch` in `l`. -/
def AfterFirst (ch : Char) (l value : Str) : Prop :=
  ∃ pre, l = pre ++ ch :: value ∧ ch ∉ pre

/-- Witness provider: knows three nodes, fails on everything else. -/
def provA : Str → Option Str := fun node =>
  if node = "/dev/ttyUSB0".toList then
    some "ID_VENDOR_ID=0403".toList
  else if node = "usb1".toList then
    some "ID_VENDOR_ID=0403\nID_MODEL_ID=6001\nID_SERIAL_SHORT=A1B2".toList
  else if node = "usb2".toList then
    some "ID_VENDOR_ID=ffff\nID_MODEL_ID=eeee".toList
  else none

/-- Witness root device at node `usb2`. -/
def devUsb2 : Device := .root (some "usb2".toList) "sysUsb2".toList

/-- Witness device at node `usb1`, child of `devUsb2`. -/
def devUsb1 : Device := .child (some "usb1".toList) "sysUsb1".toList devUsb2

/-- Witness leaf device at node `/dev/ttyUSB0`, child of `devUsb1`. -/
def devTty : Device := .child (some "/dev/ttyUSB0".toList) "sysTty".toList devUsb1

/-- Witness device whose own node is unknown to `provA`, child of
`devUsb1`. -/
def devGhost : Device := .child none "ghost0".toList devUsb1

/-- Witness device whose own node is `usb2` (a complete but serial-less
set), with `devUsb1` as parent. -/
def devSolo : Device := .child (some "usb2".toList) "sysSolo".toList devUsb1

/-- Witness device chain entirely unknown to `provA`. -/
def devLost : Device := .child none "lost1".toList (.root none "lost2".toList)

@[simp]
lemma nodeOf_root (dn : Option Str) (sp : Str) : nodeOf (.root dn sp) = pyOr dn sp := rfl

@[simp]
lemma nodeOf_child (dn : Option Str) (sp : Str) (p : Device) :
    nodeOf (.child dn sp p) = pyOr dn sp := rfl

@[simp]
lemma complete_empty : complete Attrs.empty = false := rfl

/-- C5: `append_udev_rule` on an attribute set missing any of the three
required keys reports the missing-attribute rejection, attempts no
open-for-write, and leaves the store content unchanged (no partial
record). -/
theorem append_missing_attr_rejected (store : RuleStore) (attrs : Attrs) (name : Str)
    (h : attrs.idVendor = none ∨ attrs.idProduct = none ∨ attrs.serial = none) :
    append_udev_rule store attrs name = ⟨.rejectedMissing, 0, store.content⟩ := by
  unfold append_udev_rule
  rcases h with h | h | h <;> simp [h]

/-- Witness for C5 at a concrete input: serial missing. -/
theorem append_missing_attr_rejected_witness :
    ((⟨some "0403".toList, some "6001".toList, none⟩ : Attrs).idVendor = none ∨
      (⟨some "0403".toList, some "6001".toList, none⟩ : Attrs).idProduct = none ∨
      (⟨some "0403".toList, some "6001".toList, none⟩ : Attrs).serial = none) ∧
    append_udev_rule ⟨true, "OLD\n".toList⟩
        ⟨some "0403".toList, some "6001".toList, none⟩ "arduino".toList =
      ⟨.rejectedMissing, 0, (⟨true, "OLD\n".toList⟩ : RuleStore).content⟩ :=
  ⟨Or.inr (Or.inr rfl),
    append_missing_attr_rejected ⟨true, "OLD\n".toList⟩
      ⟨some "0403".toList, some "6001".toList, none⟩ "arduino".toList
      (Or.inr (Or.inr rfl))⟩

/-- C9: when the store cannot be opened for writing, `append_udev_rule`
on a complete attribute set reports the permission-denied rejection and
returns normally (the `PermissionError` is caught), with the store
content unchanged and exactly one open attempted (no retry). -/
theorem append_permission_denied (store : RuleStore) (attrs : Attrs) (name : Str)
    (hc : attrs.idVendor.isSome = true ∧ attrs.idProduct.isSome = true ∧
      attrs.serial.isSome = true)
    (hw : store.canWrite = false) :
    append_udev_rule store attrs name = ⟨.rejectedPermission, 1, store.content⟩ := by
  unfold append_udev_rule
  simp [hc.1, hc.2.1, hc.2.2, hw]

/-- Witness for C9 at a concrete input. -/
theorem append_permission_denied_witness :
    ((⟨some "0403".toList, some "6001".toList, some "A1B2".toList⟩ : Attrs).idVendor.isSome = true ∧
      (⟨some "0403".toList, some "6001".toList, some "A1B2".toList⟩ : Attrs).idProduct.isSome = true ∧
      (⟨some "0403".toList, some "6001".toList, some "A1B2".toList⟩ : Attrs).serial.isSome = true) ∧
    (⟨false, "OLD\n".toList⟩ : RuleStore).canWrite = false ∧
    append_udev_rule ⟨false, "OLD\n".toList⟩
        ⟨some "0403".toList, some "6001".toList, some "A1B2".toList⟩ "arduino".toList =
      ⟨.rejectedPermission, 1, (⟨false, "OLD\n".toList⟩ : RuleStore).content⟩ :=
  ⟨⟨rfl, rfl, rfl⟩, rfl,
    append_permission_denied ⟨false, "OLD\n".toList⟩
      ⟨some "0403".toList, some "6001".toList, some "A1B2".toList⟩ "arduino".toList
      ⟨rfl, rfl, rfl⟩ rfl⟩

/-- C6 counterexample: a successful `append_udev_rule` with the
non-empty friendly name `"a\nb"` appends two newline characters to an
initially empty store, so the claim that every successful append adds
exactly one line (plus newline) fails at this input. -/
theorem append_one_line_refuted :
    (append_udev_rule ⟨true, []⟩
        ⟨some "0403".toList, some "6001".toList, some "A1B2".toList⟩
        ("a\nb".toList)).outcome = .success ∧
    ("a\nb".toList ≠ ([] : Str)) ∧
    (append_udev_rule ⟨true, []⟩
        ⟨some "0403".toList, some "6001".toList, some "A1B2".toList⟩
        ("a\nb".toList)).content.count '\n' = 2 := by
  decide

/-- C6 amended: a successful `append_udev_rule` on a complete attribute
set appends exactly the rendered newline-terminated rule record to the
store, leaving all prior content byte-for-byte unchanged, with one open
in append mode; when the three attribute values and the friendly name
contain no newline character, the appended record is exactly one line
(plus its terminating newline). -/
theorem append_success_frame (store : RuleStore) (name v p s : Str)
    (hw : store.canWrite = true) :
    (append_udev_rule store ⟨some v, some p, some s⟩ name).outcome = .success ∧
    (append_udev_rule store ⟨some v, some p, some s⟩ name).openAttempts = 1 ∧
    (append_udev_rule store ⟨some v, some p, some s⟩ name).content =
      store.content ++ rule_line ⟨some v, some p, some s⟩ name ∧
    (∃ u, rule_line ⟨some v, some p, some s⟩ name = u ++ ['\n']) ∧
    (v.count '\n' = 0 → p.count '\n' = 0 → s.count '\n' = 0 → name.count '\n' = 0 →
      (rule_line ⟨some v, some p, some s⟩ name).count '\n' = 1) := by
  refine ⟨by simp [append_udev_rule, hw], by simp [append_udev_rule, hw],
    by simp [append_udev_rule, hw], ?_, ?_⟩
  · refine ⟨"SUBSYSTEM==\"tty|video4linux\", ATTRS\x7bidVendor\x7d==\"".toList
      ++ v ++ "\", ATTRS\x7bidProduct\x7d==\"".toList
      ++ p ++ "\", ATTRS\x7bserial\x7d==\"".toList
      ++ s ++ "\", SYMLINK+=\"".toList ++ name ++ ['\x22'], ?_⟩
    simp [rule_line]
  · intro hv hp hs hn
    simp only [rule_line, Option.getD_some, List.count_append, hv, hp, hs, hn]
    decide

/-- Witness for C6's amended theorem at a concrete input, showing the
prior store content preserved as a prefix of the new content. -/
theorem append_success_frame_witness :
    (⟨true, "OLD\n".toList⟩ : RuleStore).canWrite = true ∧
    ((append_udev_rule ⟨true, "OLD\n".toList⟩
        ⟨some "0403".toList, some "6001".toList, some "A1B2".toList⟩
        "arduino".toList).outcome = .success ∧
      (append_udev_rule ⟨true, "OLD\n".toList⟩
        ⟨some "0403".toList, some "6001".toList, some "A1B2".toList⟩
        "arduino".toList).openAttempts = 1 ∧
      (append_udev_rule ⟨true, "OLD\n".toList⟩
        ⟨some "0403".toList, some "6001".toList, some "A1B2".toList⟩
        "arduino".toList).content =
        (⟨true, "OLD\n".toList⟩ : RuleStore).content ++
          rule_line ⟨some "0403".toList, some "6001".toList, some "A1B2".toList⟩
            "arduino".toList ∧
      (∃ u, rule_line ⟨some "0403".toList, some "6001".toList, some "A1B2".toList⟩
          "arduino".toList = u ++ ['\n']) ∧
      ("0403".toList.count '\n' = 0 → "6001".toList.count '\n' = 0 →
        "A1B2".toList.count '\n' = 0 → "arduino".toList.count '\n' = 0 →
        (rule_line ⟨some "0403".toList, some "6001".toList, some "A1B2".toList⟩
            "arduino".toList).count '\n' = 1)) :=
  ⟨rfl, append_success_frame ⟨true, "OLD\n".toList⟩ "arduino".toList
    "0403".toList "6001".toList "A1B2".toList rfl⟩

/-- C7: the rule rendered by `append_udev_rule` embeds the three
attribute values and the friendly name verbatim (no escaping) in the
fixed match-expression shape, and at the spec's scenario values
(vendor 0403, product 6001, serial A1B2, name arduino) it is exactly
the spec's scenario line followed by the terminating newline. -/
theorem rule_line_format (v p s n : Str) :
    rule_line ⟨some v, some p, some s⟩ n =
      "SUBSYSTEM==\"tty|video4linux\", ATTRS\x7bidVendor\x7d==\"".toList
        ++ v ++ "\", ATTRS\x7bidProduct\x7d==\"".toList
        ++ p ++ "\", ATTRS\x7bserial\x7d==\"".toList
        ++ s ++ "\", SYMLINK+=\"".toList
        ++ n ++ "\"\n".toList ∧
    rule_line ⟨some "0403".toList, some "6001".toList, some "A1B2".toList⟩
        "arduino".toList =
      ("SUBSYSTEM==\"tty|video4linux\", ATTRS\x7bidVendor\x7d==\"0403\", ATTRS\x7bidProduct\x7d==\"6001\", ATTRS\x7bserial\x7d==\"A1B2\", SYMLINK+=\"arduino\"").toList
        ++ ['\n'] := by
  exact ⟨by simp [rule_line], by decide⟩

lemma walkLoopT_fst (provider : Str → Option Str) (d : Device) :
    (walkLoopT provider d).1 = walkLoop provider d := by
  induction d with
  | root dn sp =>
    cases hq : complete (query_node provider (pyOr dn sp)) <;>
      simp [walkLoopT, walkLoop, hq]
  | child dn sp par ih =>
    cases hq : complete (query_node provider (pyOr dn sp)) <;>
      simp [walkLoopT, walkLoop, hq, ih]

lemma walkLoopT_find (provider : Str → Option Str) (d a : Device)
    (ha : (d :: ancestorChain d).find?
      (fun x => complete (queryDev provider x)) = some a) :
    walkLoopT provider d =
      (queryDev provider a,
        ((d :: ancestorChain d).takeWhile
            (fun x => !complete (queryDev provider x))).map nodeOf
          ++ [nodeOf a]) := by
  induction d with
  | root dn sp =>
    simp only [ancestorChain] at ha ⊢
    cases hq : complete (queryDev provider (.root dn sp)) with
    | false =>
      rw [List.find?_cons_of_neg _ (by simp [hq]), List.find?_nil] at ha
      exact absurd ha (by simp)
    | true =>
      rw [List.find?_cons_of_pos _ (by simpa using hq)] at ha
      obtain rfl := Option.some_inj.mp ha
      have hq' : complete (query_node provider (pyOr dn sp)) = true := by
        simpa [queryDev] using hq
      simp [walkLoopT, queryDev, hq, hq', List.takeWhile_cons_of_neg]
  | child dn sp par ih =>
    simp only [ancestorChain] at ha ⊢
    cases hq : complete (queryDev provider (.child dn sp par)) with
    | false =>
      rw [List.find?_cons_of_neg _ (by simp [hq])] at ha
      have ih' := ih ha
      have hq' : complete (query_node provider (pyOr dn sp)) = false := by
        simpa [queryDev] using hq
      rw [List.takeWhile_cons_of_pos (by simp [hq])]
      simp [walkLoopT, hq', ih', queryDev]
    | true =>
      rw [List.find?_cons_of_pos _ (by simpa using hq)] at ha
      obtain rfl := Option.some_inj.mp ha
      have hq' : complete (query_node provider (pyOr dn sp)) = true := by
        simpa [queryDev] using hq
      simp [walkLoopT, queryDev, hq, hq', List.takeWhile_cons_of_neg]

lemma walkLoop_all_incomplete (provider : Str → Option Str) (d : Device)
    (h : ∀ x ∈ d :: ancestorChain d, complete (queryDev provider x) = false) :
    walkLoop provider d = Attrs.empty := by
  induction d with
  | root dn sp =>
    have h0 := h _ (List.mem_cons_self _ _)
    simp only [queryDev, nodeOf_root] at h0
    simp [walkLoop, h0]
  | child dn sp par ih =>
    simp only [ancestorChain] at h
    have h0 := h _ (List.mem_cons_self _ _)
    simp only [queryDev, nodeOf_child] at h0
    have hrest : ∀ x ∈ par :: ancestorChain par,
        complete (queryDev provider x) = false := by
      intro x hx
      exact h x (List.mem_cons_of_mem _ hx)
    simp [walkLoop, h0, ih hrest]

lemma walkLoop_empty_or_complete (provider : Str → Option Str) (d : Device) :
    walkLoop provider d = Attrs.empty ∨ complete (walkLoop provider d) = true := by
  induction d with
  | root dn sp =>
    cases hq : complete (query_node provider (pyOr dn sp)) <;> simp [walkLoop, hq]
  | child dn sp par ih =>
    cases hq : complete (query_node provider (pyOr dn sp)) <;>
      simp [walkLoop, hq, ih]

/-- C2: a device handle whose own node query yields a complete set
(both `idVendor` and `idProduct`, serial not required) makes
`get_device_attributes` return that set immediately, the provider being
invoked exactly once, on the device's own query target — no parent is
ever queried. -/
theorem resolve_complete_self (provider : Str → Option Str) (dev : Device)
    (h : complete (queryDev provider dev) = true) :
    get_device_attributes provider dev = queryDev provider dev ∧
    get_device_attributesT provider dev = (queryDev provider dev, [nodeOf dev]) := by
  simp only [queryDev] at h
  simp [get_device_attributes, get_device_attributesT, queryDev, h]

/-- Witness for C2: a device whose own query is complete but serial-less
returns its own set, with only its own node queried, despite a parent
holding a full set. -/
theorem resolve_complete_self_witness :
    complete (queryDev provA devSolo) = true ∧
    (queryDev provA devSolo).serial = none ∧
    (get_device_attributes provA devSolo = queryDev provA devSolo ∧
      get_device_attributesT provA devSolo = (queryDev provA devSolo, [nodeOf devSolo])) :=
  ⟨by decide, by decide, resolve_complete_self provA devSolo (by decide)⟩

/-- C1: when a device's own node query is incomplete and some ancestor's
query is complete, `get_device_attributes` returns the set of the first
(nearest) such ancestor, and the provider is invoked exactly on the
device's node, the incomplete ancestors before that ancestor, and that
ancestor — never on any farther ancestor. -/
theorem resolve_nearest_ancestor (provider : Str → Option Str) (dev : Device)
    (hown : complete (queryDev provider dev) = false) (a : Device)
    (ha : (ancestorChain dev).find?
      (fun x => complete (queryDev provider x)) = some a) :
    get_device_attributes provider dev = queryDev provider a ∧
    (get_device_attributesT provider dev).2 =
      nodeOf dev ::
        (((ancestorChain dev).takeWhile
            (fun x => !complete (queryDev provider x))).map nodeOf
          ++ [nodeOf a]) := by
  cases dev with
  | root dn sp => simp [ancestorChain] at ha
  | child dn sp par =>
    simp only [ancestorChain] at ha ⊢
    have hw := walkLoopT_find provider par a ha
    have hq : complete (query_node provider (pyOr dn sp)) = false := by
      simpa [queryDev] using hown
    constructor
    · have hfst := congrArg Prod.fst hw
      rw [walkLoopT_fst] at hfst
      simp only [] at hfst
      simp [get_device_attributes, walkParents, Device.parent, hq, hfst]
    · have hsnd := congrArg Prod.snd hw
      simp only [] at hsnd
      simp [get_device_attributesT, walkParentsT, Device.parent, hq, hsnd]

/-- Witness for C1: the leaf's own query yields only `idVendor`; the
nearest ancestor `devUsb1` has a complete set differing from the
farther ancestor `devUsb2`'s complete set, and resolution returns
`devUsb1`'s set having queried only the leaf and `devUsb1`. -/
theorem resolve_nearest_ancestor_witness :
    complete (queryDev provA devTty) = false ∧
    (ancestorChain devTty).find?
      (fun x => complete (queryDev provA x)) = some devUsb1 ∧
    queryDev provA devUsb2 ≠ queryDev provA devUsb1 ∧
    (get_device_attributes provA devTty = queryDev provA devUsb1 ∧
      (get_device_attributesT provA devTty).2 =
        nodeOf devTty ::
          (((ancestorChain devTty).takeWhile
              (fun x => !complete (queryDev provA x))).map nodeOf
            ++ [nodeOf devUsb1])) :=
  ⟨by decide, by decide, by decide,
    resolve_nearest_ancestor provA devTty (by decide) devUsb1 (by decide)⟩

/-- C3: when neither the device's own query nor any ancestor's query is
complete, `get_device_attributes` returns the empty attribute set. -/
theorem resolve_chain_exhausted_empty (provider : Str → Option Str) (dev : Device)
    (h : ∀ x ∈ dev :: ancestorChain dev, complete (queryDev provider x) = false) :
    get_device_attributes provider dev = Attrs.empty := by
  have h0 := h _ (List.mem_cons_self _ _)
  simp only [queryDev] at h0
  cases dev with
  | root dn sp =>
    simp only [nodeOf_root] at h0
    simp [get_device_attributes, walkParents, Device.parent, h0]
  | child dn sp par =>
    simp only [ancestorChain] at h
    have hrest : ∀ x ∈ par :: ancestorChain par,
        complete (queryDev provider x) = false := by
      intro x hx
      exact h x (List.mem_cons_of_mem _ hx)
    have hw := walkLoop_all_incomplete provider par hrest
    simp only [nodeOf_child] at h0
    simp [get_device_attributes, walkParents, Device.parent, h0, hw]

/-- Witness for C3: a two-device chain entirely unknown to the provider
resolves to the empty set. -/
theorem resolve_chain_exhausted_empty_witness :
    (∀ x ∈ devLost :: ancestorChain devLost, complete (queryDev provA x) = false) ∧
    get_device_attributes provA devLost = Attrs.empty :=
  ⟨by decide, resolve_chain_exhausted_empty provA devLost (by decide)⟩

/-- C8: `get_device_attributes` is total (in this embedding it is a
Lean function), and a failed provider invocation — whether on the
device's own node or on any node reached during the parent walk —
contributes the empty attribute set for that node only, the walk
continuing with the node's parent instead of aborting. -/
theorem resolve_provider_failure_swallowed (provider : Str → Option Str)
    (dev d : Device) (h : provider (nodeOf dev) = none)
    (hd : provider (nodeOf d) = none) :
    query_node provider (nodeOf dev) = Attrs.empty ∧
    get_device_attributes provider dev = walkParents provider dev.parent ∧
    walkLoop provider d = walkParents provider d.parent := by
  have hq : query_node provider (nodeOf dev) = Attrs.empty := by
    simp [query_node, h]
  refine ⟨hq, by simp [get_device_attributes, hq], ?_⟩
  cases d with
  | root dn sp =>
    have he : query_node provider (pyOr dn sp) = Attrs.empty := by
      simp only [nodeOf_root] at hd
      simp [query_node, hd]
    simp [walkLoop, walkParents, Device.parent, he]
  | child dn sp par =>
    have he : query_node provider (pyOr dn sp) = Attrs.empty := by
      simp only [nodeOf_child] at hd
      simp [query_node, hd]
    simp [walkLoop, walkParents, Device.parent, he]

/-- Witness for C8: the provider fails on `devGhost`'s own node (the
walk then continues with its parent) and on `devLost`'s node. -/
theorem resolve_provider_failure_swallowed_witness :
    provA (nodeOf devGhost) = none ∧
    provA (nodeOf devLost) = none ∧
    (query_node provA (nodeOf devGhost) = Attrs.empty ∧
      get_device_attributes provA devGhost = walkParents provA devGhost.parent ∧
      walkLoop provA devLost = walkParents provA devLost.parent) :=
  ⟨by decide, by decide,
    resolve_provider_failure_swallowed provA devGhost devLost (by decide) (by decide)⟩

/-- C10: `get_device_attributes` always returns either the empty set or
a set containing both `idVendor` and `idProduct`; a non-empty set
lacking one of the two mandatory keys is never returned. -/
theorem resolve_empty_or_complete (provider : Str → Option Str) (dev : Device) :
    get_device_attributes provider dev = Attrs.empty ∨
    complete (get_device_attributes provider dev) = true := by
  cases hq : complete (query_node provider (nodeOf dev)) with
  | true => right; simp [get_device_attributes, hq]
  | false =>
    cases hp : dev.parent with
    | none => left; simp [get_device_attributes, walkParents, hq, hp]
    | some p =>
      rcases walkLoop_empty_or_complete provider p with h | h
      · left; simp [get_device_attributes, walkParents, hq, hp, h]
      · right; simp [get_device_attributes, walkParents, hq, hp, h]

lemma startsWithC_eq_true_iff (pat l : Str) :
    startsWithC pat l = true ↔ ∃ post, l = pat ++ post := by
  induction pat generalizing l with
  | nil =>
    simp only [startsWithC, List.nil_append, true_iff]
    exact ⟨l, rfl⟩
  | cons p ps ih =>
    cases l with
    | nil => simp [startsWithC]
    | cons c cs =>
      simp only [startsWithC, Bool.and_eq_true, beq_iff_eq, ih, List.cons_append]
      constructor
      · rintro ⟨rfl, post, rfl⟩
        exact ⟨post, rfl⟩
      · rintro ⟨post, h⟩
        injection h with h1 h2
        exact ⟨h1.symm, post, h2⟩

lemma containsSubC_eq_true_iff (pat l : Str) :
    containsSubC pat l = true ↔ HasSub pat l := by
  induction l with
  | nil =>
    rw [show containsSubC pat [] = startsWithC pat [] from rfl,
      startsWithC_eq_true_iff]
    constructor
    · rintro ⟨post, h⟩
      exact ⟨[], post, by simpa using h⟩
    · rintro ⟨pre, post, h⟩
      cases pre with
      | nil => exact ⟨post, by simpa using h⟩
      | cons x xs => simp at h
  | cons c cs ih =>
    rw [show containsSubC pat (c :: cs) =
      (startsWithC pat (c :: cs) || containsSubC pat cs) from rfl]
    simp only [Bool.or_eq_true, startsWithC_eq_true_iff, ih, HasSub]
    constructor
    · rintro (⟨post, h⟩ | ⟨pre, post, h⟩)
      · exact ⟨[], post, by simpa using h⟩
      · exact ⟨c :: pre, post, by simp [h]⟩
    · rintro ⟨pre, post, h⟩
      cases pre with
      | nil => exact Or.inl ⟨post, by simpa using h⟩
      | cons x xs =>
        injection h with h1 h2
        exact Or.inr ⟨xs, post, h2⟩

lemma afterChar_afterFirst (ch : Char) (l : Str) (h : ch ∈ l) :
    AfterFirst ch l (afterChar ch l) := by
  induction l with
  | nil => cases h
  | cons c cs ih =>
    by_cases hc : c = ch
    · subst hc
      exact ⟨[], by simp [afterChar], by simp⟩
    · rcases List.mem_cons.mp h with h1 | h2
      · exact absurd h1.symm hc
      · rcases ih h2 with ⟨pre, hpre, hnot⟩
        have he : afterChar ch (c :: cs) = afterChar ch cs := by
          simp [afterChar, hc]
        refine ⟨c :: pre, ?_, ?_⟩
        · rw [he, List.cons_append, ← hpre]
        · intro hm
          rcases List.mem_cons.mp hm with h3 | h4
          · exact hc h3.symm
          · exact hnot h4

lemma mem_of_hasSub {pat l : Str} {c : Char} (h : HasSub pat l) (hc : c ∈ pat) :
    c ∈ l := by
  rcases h with ⟨pre, post, rfl⟩
  simp [hc]

/-- C4 counterexample: the line `XID_VENDOR_ID=abc` has key (the
substring before `=`) equal to `XID_VENDOR_ID`, which is none of the
three recognized keys, yet the per-line extraction of `query_node`
stores `idVendor := "abc"` for it — so extraction is not an exact match
on the key before `=`. -/
theorem parseLine_exact_key_refuted :
    keyOf "XID_VENDOR_ID=abc".toList ≠ "ID_VENDOR_ID".toList ∧
    keyOf "XID_VENDOR_ID=abc".toList ≠ "ID_MODEL_ID".toList ∧
    keyOf "XID_VENDOR_ID=abc".toList ≠ "ID_SERIAL_SHORT".toList ∧
    parseLine Attrs.empty "XID_VENDOR_ID=abc".toList =
      ⟨some "abc".toList, none, none⟩ := by
  decide

/-- C4 amended: the per-line extraction of `query_node` is driven by
substring containment, not by an exact key match: a line containing
`ID_VENDOR_ID=` anywhere stores `idVendor`; otherwise a line containing
`ID_MODEL_ID=` stores `idProduct`; otherwise a line containing
`ID_SERIAL_SHORT=` stores `serial`; the stored value is everything
after the first `=` of the whole line; a line containing none of the
three substrings contributes nothing. -/
theorem parseLine_substring_semantics (attrs : Attrs) (line : Str) :
    (HasSub "ID_VENDOR_ID=".toList line →
      parseLine attrs line = { attrs with idVendor := some (afterChar '=' line) } ∧
      AfterFirst '=' line (afterChar '=' line)) ∧
    (¬ HasSub "ID_VENDOR_ID=".toList line →
      HasSub "ID_MODEL_ID=".toList line →
      parseLine attrs line = { attrs with idProduct := some (afterChar '=' line) } ∧
      AfterFirst '=' line (afterChar '=' line)) ∧
    (¬ HasSub "ID_VENDOR_ID=".toList line →
      ¬ HasSub "ID_MODEL_ID=".toList line →
      HasSub "ID_SERIAL_SHORT=".toList line →
      parseLine attrs line = { attrs with serial := some (afterChar '=' line) } ∧
      AfterFirst '=' line (afterChar '=' line)) ∧
    (¬ HasSub "ID_VENDOR_ID=".toList line →
      ¬ HasSub "ID_MODEL_ID=".toList line →
      ¬ HasSub "ID_SERIAL_SHORT=".toList line →
      parseLine attrs line = attrs) := by
  refine ⟨fun hv => ?_, fun hv hm => ?_, fun hv hm hs => ?_, fun hv hm hs => ?_⟩
  · have hb : containsSubC "ID_VENDOR_ID=".toList line = true :=
      (containsSubC_eq_true_iff _ _).mpr hv
    refine ⟨by unfold parseLine; rw [hb]; simp, ?_⟩
    exact afterChar_afterFirst '=' line (mem_of_hasSub hv (by decide))
  · have hbv : containsSubC "ID_VENDOR_ID=".toList line = false := by
      simpa using (fun hx => hv ((containsSubC_eq_true_iff _ _).mp hx))
    have hbm : containsSubC "ID_MODEL_ID=".toList line = true :=
      (containsSubC_eq_true_iff _ _).mpr hm
    refine ⟨by unfold parseLine; rw [hbv, hbm]; simp, ?_⟩
    exact afterChar_afterFirst '=' line (mem_of_hasSub hm (by decide))
  · have hbv : containsSubC "ID_VENDOR_ID=".toList line = false := by
      simpa using (fun hx => hv ((containsSubC_eq_true_iff _ _).mp hx))
    have hbm : containsSubC "ID_MODEL_ID=".toList line = false := by
      simpa using (fun hx => hm ((containsSubC_eq_true_iff _ _).mp hx))
    have hbs : containsSubC "ID_SERIAL_SHORT=".toList line = true :=
      (containsSubC_eq_true_iff _ _).mpr hs
    refine ⟨by unfold parseLine; rw [hbv, hbm, hbs]; simp, ?_⟩
    exact afterChar_afterFirst '=' line (mem_of_hasSub hs (by decide))
  · have hbv : containsSubC "ID_VENDOR_ID=".toList line = false := by
      simpa using (fun hx => hv ((containsSubC_eq_true_iff _ _).mp hx))
    have hbm : containsSubC "ID_MODEL_ID=".toList line = false := by
      simpa using (fun hx => hm ((containsSubC_eq_true_iff _ _).mp hx))
    have hbs : containsSubC "ID_SERIAL_SHORT=".toList line = false := by
      simpa using (fun hx => hs ((containsSubC_eq_true_iff _ _).mp hx))
    unfold parseLine
    rw [hbv, hbm, hbs]
    simp

/-- Witness for C4's amended theorem: a line containing `ID_VENDOR_ID=`
(after an unrelated first `=`) stores as `idVendor` everything after the
first `=` of the whole line. -/
theorem parseLine_substring_semantics_witness :
    HasSub "ID_VENDOR_ID=".toList "X=1 ID_VENDOR_ID=0403".toList ∧
    (parseLine Attrs.empty "X=1 ID_VENDOR_ID=0403".toList =
      { Attrs.empty with
          idVendor := some (afterChar '=' "X=1 ID_VENDOR_ID=0403".toList) } ∧
      AfterFirst '=' "X=1 ID_VENDOR_ID=0403".toList
        (afterChar '=' "X=1 ID_VENDOR_ID=0403".toList)) :=
  ⟨⟨"X=1 ".toList, "0403".toList, by decide⟩,
    (parseLine_substring_semantics Attrs.empty "X=1 ID_VENDOR_ID=0403".toList).1
      ⟨"X=1 ".toList, "0403".toList, by decide⟩⟩

end UdevMapper
